import Mathlib

/-!
Shallow embedding of the scala-lapce plugin's resolution and launch-decision
logic (src/main.rs) together with proofs about its behaviour.

Modelling conventions:
* `serde_json::Value` is the inductive `Json` below; `Value::get` on an
  object is association-list lookup.
* Subprocess probes and the environment queries (`VoltEnvironment`, the
  release registry) are an explicit `Env` record; `Option String` models a
  command whose output may fail to be produced, `Except String _` models the
  `Result` of an environment query.
* String handling is done on `List Char` (`String.data`); the regular
  expression `\d+\.\d+\.\d+` (and the JDK release shape) is embedded as an
  executable leftmost matcher with maximal-munch digit groups, which agrees
  with the backtracking regex because a digit can never match `.` or `+`.
* `Url::parse(&format!("urn:{}", p))` (written `rl::parse` once in the
  source) is modelled by its serialisation `"urn:" ++ p` for ordinary path
  characters, and `Url::join` by replacement of the final path segment.
* A Rust panic (`unwrap` of `None`) is modelled by `Option.none` /
  a dedicated `panicked` outcome.
The source's `fn initialize` is embedded as `resolve` (`initialize` is a
reserved word in Lean).
-/

set_option autoImplicit false

namespace ScalaLapce

/-- JSON values, mirroring `serde_json::Value` as the plugin uses it. -/
inductive Json where
  | null : Json
  | bool : Bool → Json
  | num : Int → Json
  | str : String → Json
  | arr : List Json → Json
  | obj : List (String × Json) → Json
  deriving Inhabited

/-- `Value::get(key)`: field lookup on an object, `None` on anything else. -/
def Json.get? (v : Json) (key : String) : Option Json :=
  match v with
  | .obj fields => fields.lookup key
  | _ => none

/-- `Value::as_str`. -/
def Json.asStr : Json → Option String
  | .str s => some s
  | _ => none

/-- `Value::as_array`. -/
def Json.asArr : Json → Option (List Json)
  | .arr xs => some xs
  | _ => none

/-- Rust `str::lines().next().unwrap_or_default()`: the text up to the first
newline, with a trailing carriage return stripped. -/
def firstLine (s : String) : String :=
  let l := s.data.takeWhile (fun c => c ≠ '\n')
  (if l.getLast? = some '\r' then l.dropLast else l).asString

/-- Maximal run of ASCII digits at the head of the character list, together
with the remainder. -/
def takeDigits : List Char → List Char × List Char
  | [] => ([], [])
  | c :: cs =>
    if c.isDigit then
      let p := takeDigits cs
      (c :: p.1, p.2)
    else ([], c :: cs)

/-- Attempt to match the regex `\d+\.\d+\.\d+` at the head of the list;
on success returns the matched text and the remainder of the input. -/
def matchVersionAt (cs : List Char) : Option (List Char × List Char) :=
  let p1 := takeDigits cs
  if p1.1 = [] then none else
  match p1.2 with
  | '.' :: r1 =>
    let p2 := takeDigits r1
    if p2.1 = [] then none else
    match p2.2 with
    | '.' :: r2 =>
      let p3 := takeDigits r2
      if p3.1 = [] then none else
      some (p1.1 ++ '.' :: p2.1 ++ '.' :: p3.1, p3.2)
    | _ => none
  | _ => none

/-- `Regex::find` for `\d+\.\d+\.\d+`: the leftmost match, with the
remainder of the input after it. -/
def findVersionFrom : List Char → Option (List Char × List Char)
  | [] => none
  | c :: cs =>
    match matchVersionAt (c :: cs) with
    | some r => some r
    | none => findVersionFrom cs

/-- `Regex::find_iter` for `\d+\.\d+\.\d+`: all non-overlapping matches in
order of appearance, fuelled for termination. -/
def versionMatchesAux : Nat → List Char → List (List Char)
  | 0, _ => []
  | fuel + 1, cs =>
    match findVersionFrom cs with
    | none => []
    | some mr => mr.1 :: versionMatchesAux fuel mr.2

/-- All `\d+\.\d+\.\d+` matches of the input, in order of appearance. -/
def versionMatches (cs : List Char) : List (List Char) :=
  versionMatchesAux (cs.length + 1) cs

/-- The `java_version` binding: first line of the probe's diagnostic output,
or the empty string when the command fails.  Source lines 78-91: no pattern
search is applied to the java probe. -/
def java_version (probe : Option String) : String :=
  (probe.map (fun out => firstLine out)).getD ""

/-- The `scala_version` binding: first `\d+\.\d+\.\d+` match of the first
output line, or the empty string when there is no match or the command
fails (source lines 96-115). -/
def scala_version (probe : Option String) : String :=
  (probe.map (fun out =>
    ((findVersionFrom (firstLine out).data).map (fun mr => mr.1.asString)).getD "")).getD ""

/-- The `sbt_version` binding: all `\d+\.\d+\.\d+` matches of the first
output line, still wrapped in the probe's `Result` (source lines 123-139). -/
def sbt_version (probe : Option String) : Option (List String) :=
  probe.map (fun out => (versionMatches (firstLine out).data).map List.asString)

/-- `lsp_types::DocumentFilter` (the three fields the plugin sets). -/
structure DocumentFilter where
  language : Option String
  scheme : Option String
  pattern : Option String
  deriving Repr, DecidableEq

/-- `lsp_types::MessageType` severities. -/
inductive MessageType where
  | error : MessageType
  | warning : MessageType
  | info : MessageType
  | log : MessageType
  deriving Repr, DecidableEq

/-- The argument bundle of a `PLUGIN_RPC.start_lsp` call: the terminal
launch directive of one resolution. -/
structure LaunchDirective where
  server_uri : String
  server_args : List String
  document_selector : List DocumentFilter
  options : Option Json

/-- The deserialised part of `lsp_types::InitializeParams` the plugin
reads. -/
structure InitializeParams where
  initialization_options : Option Json

/-- Environment snapshot consumed by one resolution: probe outputs
(`none` when the command fails to run), and the `VoltEnvironment` /
release-registry queries (`Except` mirrors their `Result`s; `voltUri` is
the parsed plugin working-directory URI, collapsing the two fallible
steps `VoltEnvironment::uri()?` and `Url::parse(..)?`). -/
structure Env where
  javaProbe : Option String
  scalaProbe : Option String
  sbtProbe : Option String
  os : Except String String
  voltUri : Except String String
  latestRelease : String → Except String String

/-- `get_latest_release_for`: forwards the registry's answer for the
repository identifier (source lines 224-228). -/
def get_latest_release_for (env : Env) (repo : String) : Except String String :=
  env.latestRelease repo

/-- Serialisation of `Url::parse(&format!("urn:{}", path))` for path strings
made of ordinary URI characters (the source writes `rl::parse` at line 62,
read as `Url::parse`). -/
def urnOf (path : String) : String := "urn:" ++ path

/-- `Url::join base rel`: the segment after the last slash of the base is
replaced by the relative name. -/
def joinUri (base rel : String) : String :=
  let pre := (base.data.reverse.dropWhile (fun c => c ≠ '/')).reverse
  if pre.isEmpty then base ++ "/" ++ rel else pre.asString ++ rel

/-- The top-level `serverPath` override (source lines 47-58): present only
when the options carry a string `serverPath` that is non-empty. -/
def topLevelServerPath (params : InitializeParams) : Option String :=
  (((params.initialization_options.bind (fun o => o.get? "serverPath")).bind
      Json.asStr).bind
    (fun sp => if sp.isEmpty then none else some sp))

/-- The document selector built inline in the top-level-override branch
(source lines 64-72); the glob-pattern string literal is broken across two
source lines, so it contains a newline and the 16 spaces of indentation. -/
def overrideSelector : List DocumentFilter :=
  [{ language := some "scala", scheme := none,
     pattern := some "**/*.\n                {scala}" }]

/-- The `document_selector` binding shared by the namespaced-override and
auto-provision branches (source lines 141-148). -/
def document_selector : List DocumentFilter :=
  [{ language := some "scala", pattern := some "**/*.{scala}", scheme := none }]

/-- The `server_args` accumulated from `lsp.serverArgs` (source lines
149-171): string elements of the array in order, non-strings skipped;
empty when there is no array.  The source's reset `server_args = vec![]`
on a non-empty array is a no-op because the variable starts empty. -/
def server_args (opts : Option Json) : List String :=
  match ((opts.bind (fun o => o.get? "lsp")).bind
          (fun lsp => lsp.get? "serverArgs")).bind Json.asArr with
  | some args => args.filterMap Json.asStr
  | none => []

/-- The nested `lsp.serverPath` override (source lines 173-186): present
only when it is a non-empty string. -/
def lspServerPath (opts : Option Json) : Option String :=
  ((((opts.bind (fun o => o.get? "lsp")).bind
        (fun lsp => lsp.get? "serverPath")).bind Json.asStr).bind
    (fun sp => if sp.isEmpty then none else some sp))

/-- The `jdk_url` binding (source lines 197-202): per-OS download URL
table with a generic fallback. -/
def jdk_url (os : Except String String) : String :=
  match os with
  | .ok "windows" =>
      "https://github.com/adoptium/temurin21-binaries/releases/download/jdk-21.0.2%2B13/OpenJDK21U-jdk_x64_windows_hotspot_21.0.2_13.msi"
        ++ ".exe"
  | _ => "[filename]"

/-- The body of the source's `fn initialize` (lines 46-221), embedded as a
pure function from the request parameters and the environment snapshot to
the launch directive handed to `PLUGIN_RPC.start_lsp`, or the error
propagated by a `?`.  Named `resolve` because `initialize` is a reserved
word in Lean. -/
def resolve (params : InitializeParams) (env : Env) : Except String LaunchDirective :=
  match topLevelServerPath params with
  | some server_path =>
      .ok { server_uri := urnOf server_path
            server_args := []
            document_selector := overrideSelector
            options := params.initialization_options }
  | none =>
      let _java := java_version env.javaProbe
      let _scala := some (scala_version env.scalaProbe)
      let _sbt := sbt_version env.sbtProbe
      let args := server_args params.initialization_options
      match lspServerPath params.initialization_options with
      | some server_path =>
          .ok { server_uri := urnOf server_path
                server_args := args
                document_selector := document_selector
                options := params.initialization_options }
      | none => do
          let _release ← get_latest_release_for env "adoptium/temurin21-binaries"
          let _url := jdk_url env.os
          let volt_uri ← env.voltUri
          .ok { server_uri := joinUri volt_uri "[filename]"
                server_args := args
                document_selector := document_selector
                options := params.initialization_options }

/-- serde deserialisation of `InitializeParams` from a JSON value,
modelled at the boundary: it succeeds exactly on objects, reading the
`initializationOptions` field, and fails on every non-object value. -/
def paramsFromValue : Json → Option InitializeParams
  | .obj fields => some { initialization_options := (Json.obj fields).get? "initializationOptions" }
  | _ => none

/-- Outcome of one `handle_request` call: normal termination with the
`window_show_message` notifications emitted and the directive started (if
any), or a panic. -/
inductive HandleOutcome where
  | normal : List (MessageType × String) → Option LaunchDirective → HandleOutcome
  | panicked : HandleOutcome

/-- `LapcePlugin::handle_request` (source lines 255-269): on the
`initialize` method, deserialise the params (`unwrap` panics on failure),
delegate, and turn an error into a single ERROR notification. -/
def handle_request (method : String) (params : Json) (env : Env) : HandleOutcome :=
  if method = "initialize" then
    match paramsFromValue params with
    | none => .panicked
    | some p =>
      match resolve p env with
      | .ok d => .normal [] (some d)
      | .error e => .normal [(MessageType.error, "plugin returned with error: " ++ e)] none
  else .normal [] none

/-- `read_major_jdk_version` needs the first capture group of the leftmost
`(\d+)\.(\d+)\.(\d+)\+\d+` match: attempt at the head of the list. -/
def matchJdkAt (cs : List Char) : Option (List Char) :=
  let p1 := takeDigits cs
  if p1.1 = [] then none else
  match p1.2 with
  | '.' :: r1 =>
    let p2 := takeDigits r1
    if p2.1 = [] then none else
    match p2.2 with
    | '.' :: r2 =>
      let p3 := takeDigits r2
      if p3.1 = [] then none else
      match p3.2 with
      | '+' :: r3 =>
        let p4 := takeDigits r3
        if p4.1 = [] then none else some p1.1
      | _ => none
    | _ => none
  | _ => none

/-- Leftmost `(\d+)\.(\d+)\.(\d+)\+\d+` match: first capture group. -/
def findJdkFrom : List Char → Option (List Char)
  | [] => none
  | c :: cs =>
    match matchJdkAt (c :: cs) with
    | some cap => some cap
    | none => findJdkFrom cs

/-- `read_major_jdk_version` (source lines 241-245): format the major
component of the release as `OpenJDK<major>U`.  The source calls
`captures(release).unwrap()`, so a release the regex does not match makes
it panic; the panic is modelled by `none`. -/
def read_major_jdk_version (release : String) : Option String :=
  (findJdkFrom release.data).map (fun cap => "OpenJDK" ++ cap.asString ++ "U")

/-- Declarative shape of one `\d+\.\d+\.\d+` match: three non-empty digit
groups separated by dots. -/
def IsVersion (cs : List Char) : Prop :=
  ∃ a b c : List Char, a ≠ [] ∧ b ≠ [] ∧ c ≠ [] ∧
    (∀ x ∈ a, x.isDigit) ∧ (∀ x ∈ b, x.isDigit) ∧ (∀ x ∈ c, x.isDigit) ∧
    cs = a ++ '.' :: (b ++ '.' :: c)

/-- The input begins with a `\d+\.\d+\.\d+` match. -/
def StartsWithVersion (cs : List Char) : Prop :=
  ∃ v post, cs = v ++ post ∧ IsVersion v

/-- The input contains a `\d+\.\d+\.\d+` match somewhere. -/
def HasVersion (cs : List Char) : Prop :=
  ∃ pre v post, cs = pre ++ v ++ post ∧ IsVersion v

/-- Declarative shape of an occurrence of `(\d+)\.(\d+)\.(\d+)\+\d+`
somewhere in the input. -/
def HasJdkShape (cs : List Char) : Prop :=
  ∃ pre a b c d post : List Char, a ≠ [] ∧ b ≠ [] ∧ c ≠ [] ∧ d ≠ [] ∧
    (∀ x ∈ a, x.isDigit) ∧ (∀ x ∈ b, x.isDigit) ∧ (∀ x ∈ c, x.isDigit) ∧
    (∀ x ∈ d, x.isDigit) ∧
    cs = pre ++ a ++ '.' :: (b ++ '.' :: (c ++ '+' :: (d ++ post)))

/-- A concrete environment snapshot used for concrete evaluations. -/
def envFixture : Env where
  javaProbe := some "openjdk version 21.0.2 2024-01-16"
  scalaProbe := some "Scala code runner version 3.3.1"
  sbtProbe := some "sbt version in this project: 1.9.9"
  os := .ok "linux"
  voltUri := .ok "file:///volt/"
  latestRelease := fun _ => .ok "21.0.2+13"

/-- Options carrying a non-empty top-level `serverPath`. -/
def topLevelParams : InitializeParams :=
  ⟨some (.obj [("serverPath", .str "/usr/bin/metals")])⟩

/-- Options carrying a nested `lsp.serverPath` plus mixed `lsp.serverArgs`. -/
def namespacedParams : InitializeParams :=
  ⟨some (.obj [("lsp", .obj [("serverPath", .str "metals"),
      ("serverArgs", .arr [.str "-a", .num 3, .str "-b"])])])⟩

/-- Options carrying `lsp.serverArgs` but no usable `lsp.serverPath`. -/
def argsOnlyParams : InitializeParams :=
  ⟨some (.obj [("lsp", .obj [("serverArgs", .arr [.str "--foo"])])])⟩

/-- Options whose `serverPath` strings are empty at both levels. -/
def emptyPathsParams : InitializeParams :=
  ⟨some (.obj [("serverPath", .str ""), ("lsp", .obj [("serverPath", .str "")])])⟩

theorem takeDigits_append_eq (cs : List Char) :
    (takeDigits cs).1 ++ (takeDigits cs).2 = cs := by
  induction cs with
  | nil => rfl
  | cons c cs ih =>
    by_cases hc : c.isDigit
    · simp [takeDigits, hc, ih]
    · simp [takeDigits, hc]

theorem takeDigits_digits (cs : List Char) :
    ∀ c ∈ (takeDigits cs).1, c.isDigit := by
  induction cs with
  | nil => intro c hc; cases hc
  | cons c cs ih =>
    by_cases hc : c.isDigit
    · simp only [takeDigits, hc, if_pos]
      intro x hx
      rcases List.mem_cons.mp hx with h | h
      · exact h ▸ hc
      · exact ih x h
    · simp [takeDigits, hc]

theorem takeDigits_append_digits (ds r : List Char) (hd : ∀ c ∈ ds, c.isDigit) :
    takeDigits (ds ++ r) = (ds ++ (takeDigits r).1, (takeDigits r).2) := by
  induction ds with
  | nil => simp
  | cons c ds ih =>
    have hc : c.isDigit := hd c (List.mem_cons_self c ds)
    have ih' := ih (fun x hx => hd x (List.mem_cons_of_mem c hx))
    simp [takeDigits, hc, ih']

theorem takeDigits_dot (r : List Char) : takeDigits ('.' :: r) = ([], '.' :: r) := by
  simp [takeDigits, show ('.' : Char).isDigit = false by decide]

theorem takeDigits_plus (r : List Char) : takeDigits ('+' :: r) = ([], '+' :: r) := by
  simp [takeDigits, show ('+' : Char).isDigit = false by decide]

theorem matchVersionAt_decomp (a b c rest : List Char)
    (ha : a ≠ []) (hb : b ≠ []) (hc : c ≠ [])
    (hda : ∀ x ∈ a, x.isDigit) (hdb : ∀ x ∈ b, x.isDigit)
    (hdc : ∀ x ∈ c, x.isDigit) :
    matchVersionAt (a ++ '.' :: (b ++ '.' :: (c ++ rest)))
      = some (a ++ '.' :: (b ++ '.' :: (c ++ (takeDigits rest).1)),
              (takeDigits rest).2) := by
  unfold matchVersionAt
  rw [takeDigits_append_digits a _ hda, takeDigits_dot]
  simp only [List.append_nil, ha, if_neg, ite_false]
  rw [takeDigits_append_digits b _ hdb, takeDigits_dot]
  simp only [List.append_nil, hb, ite_false]
  rw [takeDigits_append_digits c _ hdc]
  simp [ha, hb, hc, List.append_assoc]

theorem matchVersionAt_isSome (v rest : List Char) (hv : IsVersion v) :
    (matchVersionAt (v ++ rest)).isSome := by
  obtain ⟨a, b, c, ha, hb, hc, hda, hdb, hdc, hveq⟩ := hv
  have hsplit : v ++ rest = a ++ '.' :: (b ++ '.' :: (c ++ rest)) := by
    subst hveq; simp [List.append_assoc]
  rw [hsplit, matchVersionAt_decomp a b c rest ha hb hc hda hdb hdc]
  rfl

theorem matchVersionAt_sound (cs m r : List Char)
    (h : matchVersionAt cs = some (m, r)) : IsVersion m ∧ cs = m ++ r := by
  unfold matchVersionAt at h
  simp only at h
  split at h
  · exact absurd h (by simp)
  next h1 =>
  split at h
  case _ r1 heq1 =>
    split at h
    · exact absurd h (by simp)
    next h2 =>
    split at h
    case _ r2 heq2 =>
      split at h
      · exact absurd h (by simp)
      next h3 =>
      have hpair := Option.some.inj h.symm
      have hm := congrArg Prod.fst hpair
      have hr := congrArg Prod.snd hpair
      simp only at hm hr
      have e1 := takeDigits_append_eq cs
      have e2 := takeDigits_append_eq r1
      have e3 := takeDigits_append_eq r2
      rw [heq1] at e1
      rw [heq2] at e2
      constructor
      · exact ⟨(takeDigits cs).1, (takeDigits r1).1, (takeDigits r2).1,
          h1, h2, h3, takeDigits_digits cs, takeDigits_digits r1,
          takeDigits_digits r2, by
            rw [hm]; simp [List.append_assoc, List.cons_append]⟩
      · subst hm hr
        simp only [List.append_assoc, List.cons_append]
        rw [e3, e2, e1]
    · exact absurd h (by simp)
  · exact absurd h (by simp)

theorem matchVersionAt_none (cs : List Char) (h : matchVersionAt cs = none) :
    ¬ ∃ v post, cs = v ++ post ∧ IsVersion v := by
  rintro ⟨v, post, rfl, hv⟩
  have hs := matchVersionAt_isSome v post hv
  rw [h] at hs
  exact absurd hs (by simp)

theorem findVersionFrom_sound (cs m r : List Char)
    (h : findVersionFrom cs = some (m, r)) :
    ∃ pre, cs = pre ++ m ++ r ∧ IsVersion m ∧
      ∀ i, i < pre.length →
        ¬ ∃ v post, cs.drop i = v ++ post ∧ IsVersion v := by
  induction cs with
  | nil => cases h
  | cons c cs ih =>
    simp only [findVersionFrom] at h
    cases hmv : matchVersionAt (c :: cs) with
    | some mr =>
      rw [hmv] at h
      have h' : some mr = some (m, r) := h
      have hmr : mr = (m, r) := Option.some.inj h'
      obtain ⟨hv, heq⟩ := matchVersionAt_sound (c :: cs) m r (by rw [hmv, hmr])
      exact ⟨[], by simpa using heq, hv, fun i hi => absurd hi (by simp)⟩
    | none =>
      rw [hmv] at h
      have h' : findVersionFrom cs = some (m, r) := h
      obtain ⟨pre, heq, hv, hleft⟩ := ih h'
      refine ⟨c :: pre, by simp [heq, List.append_assoc], hv, ?_⟩
      intro i hi
      cases i with
      | zero =>
        simpa using matchVersionAt_none (c :: cs) hmv
      | succ j =>
        have hj : j < pre.length := by simpa using hi
        simpa using hleft j hj

theorem findVersionFrom_complete (pre v post : List Char) (hv : IsVersion v) :
    (findVersionFrom (pre ++ v ++ post)).isSome := by
  induction pre with
  | nil =>
    have hne : v ++ post ≠ [] := by
      obtain ⟨a, b, c, ha, _, _, _, _, _, hveq⟩ := hv
      subst hveq
      simp [ha]
    obtain ⟨x, xs, hxs⟩ := List.exists_cons_of_ne_nil hne
    simp only [List.nil_append]
    rw [hxs, findVersionFrom]
    cases hmv : matchVersionAt (x :: xs) with
    | some mr => simp
    | none =>
      have hs := matchVersionAt_isSome v post hv
      rw [hxs, hmv] at hs
      exact absurd hs (by simp)
  | cons p pre ih =>
    simp only [List.cons_append, findVersionFrom]
    cases hmv : matchVersionAt (p :: (pre ++ v ++ post)) with
    | some mr => simp
    | none => simpa using ih

theorem versionMatchesAux_sound (fuel : Nat) :
    ∀ cs m, m ∈ versionMatchesAux fuel cs → IsVersion m := by
  induction fuel with
  | zero => intro cs m hm; cases hm
  | succ fuel ih =>
    intro cs m hm
    simp only [versionMatchesAux] at hm
    cases hf : findVersionFrom cs with
    | none => rw [hf] at hm; cases hm
    | some mr =>
      rw [hf] at hm
      rcases List.mem_cons.mp hm with h | h
      · obtain ⟨_, _, hv, _⟩ := findVersionFrom_sound cs mr.1 mr.2 (by rw [hf])
        exact h ▸ hv
      · exact ih mr.2 m h

theorem matchJdkAt_decomp (a b c d rest : List Char)
    (ha : a ≠ []) (hb : b ≠ []) (hc : c ≠ []) (hd : d ≠ [])
    (hda : ∀ x ∈ a, x.isDigit) (hdb : ∀ x ∈ b, x.isDigit)
    (hdc : ∀ x ∈ c, x.isDigit) (hdd : ∀ x ∈ d, x.isDigit) :
    matchJdkAt (a ++ '.' :: (b ++ '.' :: (c ++ '+' :: (d ++ rest))))
      = some a := by
  unfold matchJdkAt
  rw [takeDigits_append_digits a _ hda, takeDigits_dot]
  simp only [List.append_nil, ha, ite_false]
  rw [takeDigits_append_digits b _ hdb, takeDigits_dot]
  simp only [List.append_nil, hb, ite_false]
  rw [takeDigits_append_digits c _ hdc, takeDigits_plus]
  simp only [List.append_nil, hc, ite_false]
  rw [takeDigits_append_digits d _ hdd]
  simp [ha, hb, hc, hd]

theorem matchJdkAt_sound (cs cap : List Char) (h : matchJdkAt cs = some cap) :
    cap ≠ [] ∧ (∀ x ∈ cap, x.isDigit) ∧
    ∃ b c d rest : List Char, b ≠ [] ∧ c ≠ [] ∧ d ≠ [] ∧
      (∀ x ∈ b, x.isDigit) ∧ (∀ x ∈ c, x.isDigit) ∧ (∀ x ∈ d, x.isDigit) ∧
      cs = cap ++ '.' :: (b ++ '.' :: (c ++ '+' :: (d ++ rest))) := by
  unfold matchJdkAt at h
  simp only at h
  split at h
  · exact absurd h (by simp)
  next h1 =>
  split at h
  case _ r1 heq1 =>
    split at h
    · exact absurd h (by simp)
    next h2 =>
    split at h
    case _ r2 heq2 =>
      split at h
      · exact absurd h (by simp)
      next h3 =>
      split at h
      case _ r3 heq3 =>
        split at h
        · exact absurd h (by simp)
        next h4 =>
        have hcap : cap = (takeDigits cs).1 := (Option.some.inj h).symm
        have e1 := takeDigits_append_eq cs
        have e2 := takeDigits_append_eq r1
        have e3 := takeDigits_append_eq r2
        have e4 := takeDigits_append_eq r3
        rw [heq1] at e1
        rw [heq2] at e2
        rw [heq3] at e3
        subst hcap
        refine ⟨h1, takeDigits_digits cs,
          (takeDigits r1).1, (takeDigits r2).1, (takeDigits r3).1,
          (takeDigits r3).2, h2, h3, h4,
          takeDigits_digits r1, takeDigits_digits r2, takeDigits_digits r3, ?_⟩
        rw [e4, e3, e2, e1]
      · exact absurd h (by simp)
    · exact absurd h (by simp)
  · exact absurd h (by simp)

theorem findJdkFrom_sound (cs cap : List Char) (h : findJdkFrom cs = some cap) :
    HasJdkShape cs ∧ cap ≠ [] ∧ (∀ x ∈ cap, x.isDigit) := by
  induction cs with
  | nil => cases h
  | cons x xs ih =>
    simp only [findJdkFrom] at h
    cases hmv : matchJdkAt (x :: xs) with
    | some cap' =>
      rw [hmv] at h
      have h' : some cap' = some cap := h
      have hcc : cap' = cap := Option.some.inj h'
      rw [hcc] at hmv
      obtain ⟨hne, hdig, b, c, d, rest, hb, hc, hd, hdb, hdc, hdd, heq⟩ :=
        matchJdkAt_sound (x :: xs) cap hmv
      exact ⟨⟨[], cap, b, c, d, rest, hne, hb, hc, hd, hdig, hdb, hdc, hdd,
        by simpa using heq⟩, hne, hdig⟩
    | none =>
      rw [hmv] at h
      have h' : findJdkFrom xs = some cap := h
      obtain ⟨⟨pre, a, b, c, d, post, ha, hb, hc, hd, hda, hdb, hdc, hdd, heq⟩,
        hne, hdig⟩ := ih h'
      exact ⟨⟨x :: pre, a, b, c, d, post, ha, hb, hc, hd, hda, hdb, hdc, hdd,
        by simp [heq]⟩, hne, hdig⟩

theorem findJdkFrom_complete (cs : List Char) (h : HasJdkShape cs) :
    (findJdkFrom cs).isSome := by
  obtain ⟨pre, a, b, c, d, post, ha, hb, hc, hd, hda, hdb, hdc, hdd, heq⟩ := h
  subst heq
  induction pre with
  | nil =>
    have hne : a ++ '.' :: (b ++ '.' :: (c ++ '+' :: (d ++ post))) ≠ [] := by
      simp [ha]
    obtain ⟨x, xs, hxs⟩ := List.exists_cons_of_ne_nil hne
    simp only [List.nil_append]
    rw [hxs, findJdkFrom]
    cases hmv : matchJdkAt (x :: xs) with
    | some cap => simp
    | none =>
      have hs := matchJdkAt_decomp a b c d post ha hb hc hd hda hdb hdc hdd
      rw [hxs, hmv] at hs
      cases hs
  | cons p pre ih =>
    simp only [List.cons_append, findJdkFrom]
    cases hmv : matchJdkAt
        (p :: (pre ++ a ++ '.' :: (b ++ '.' :: (c ++ '+' :: (d ++ post))))) with
    | some cap => simp
    | none => simpa using ih

theorem filterMap_asStr_eq_filter (args : List Json) :
    (args.filterMap Json.asStr).map Json.str
      = args.filter (fun a => (Json.asStr a).isSome) := by
  induction args with
  | nil => rfl
  | cons a args ih => cases a <;> simp [Json.asStr, ih]

theorem resolve_top_eq (params : InitializeParams) (env : Env) (sp : String)
    (h : topLevelServerPath params = some sp) :
    resolve params env
      = .ok { server_uri := urnOf sp, server_args := [],
              document_selector := overrideSelector,
              options := params.initialization_options } := by
  simp only [resolve, h]

theorem resolve_namespaced_eq (params : InitializeParams) (env : Env) (sp : String)
    (h0 : topLevelServerPath params = none)
    (h1 : lspServerPath params.initialization_options = some sp) :
    resolve params env
      = .ok { server_uri := urnOf sp,
              server_args := server_args params.initialization_options,
              document_selector := document_selector,
              options := params.initialization_options } := by
  simp only [resolve, h0, h1]

theorem resolve_autoprov_eq (params : InitializeParams) (env : Env)
    (rel v : String)
    (h0 : topLevelServerPath params = none)
    (h1 : lspServerPath params.initialization_options = none)
    (hrel : env.latestRelease "adoptium/temurin21-binaries" = .ok rel)
    (hvu : env.voltUri = .ok v) :
    resolve params env
      = .ok { server_uri := joinUri v "[filename]",
              server_args := server_args params.initialization_options,
              document_selector := document_selector,
              options := params.initialization_options } := by
  simp only [resolve, h0, h1, get_latest_release_for, hrel, hvu]
  rfl

theorem resolve_autoprov_inv (params : InitializeParams) (env : Env)
    (d : LaunchDirective)
    (h0 : topLevelServerPath params = none)
    (h1 : lspServerPath params.initialization_options = none)
    (hd : resolve params env = .ok d) :
    ∃ rel v, env.latestRelease "adoptium/temurin21-binaries" = .ok rel ∧
      env.voltUri = .ok v ∧
      d = { server_uri := joinUri v "[filename]",
            server_args := server_args params.initialization_options,
            document_selector := document_selector,
            options := params.initialization_options } := by
  simp only [resolve, h0, h1, get_latest_release_for] at hd
  cases hrel : env.latestRelease "adoptium/temurin21-binaries" with
  | error e =>
    rw [hrel] at hd
    exact Except.noConfusion hd
  | ok rel =>
    rw [hrel] at hd
    cases hvu : env.voltUri with
    | error e =>
      rw [hvu] at hd
      exact Except.noConfusion hd
    | ok v =>
      rw [hvu] at hd
      have hd' : Except.ok
          ({ server_uri := joinUri v "[filename]",
             server_args := server_args params.initialization_options,
             document_selector := document_selector,
             options := params.initialization_options } : LaunchDirective)
          = Except.ok d := hd
      exact ⟨rel, v, rfl, rfl, (Except.ok.inj hd').symm⟩

/-- C1 (amended): a configuration with a non-empty top-level serverPath
resolves, for every environment, to a directive whose server_uri is the
URN formed from that path ("urn:" ++ path, not the bare path), with an
empty argument list; the result is independent of the whole environment,
so no registry query (Release Resolver) can influence it. -/
theorem c1_top_override (params : InitializeParams) (sp : String)
    (h : topLevelServerPath params = some sp) :
    (∀ env env', resolve params env = resolve params env') ∧
    ∀ env, resolve params env
      = .ok { server_uri := urnOf sp, server_args := [],
              document_selector := overrideSelector,
              options := params.initialization_options } := by
  refine ⟨fun env env' => ?_, fun env => resolve_top_eq params env sp h⟩
  rw [resolve_top_eq params env sp h, resolve_top_eq params env' sp h]

/-- C1 witness: the amended claim at the concrete fixture. -/
theorem c1_witness :
    topLevelServerPath topLevelParams = some "/usr/bin/metals" ∧
    resolve topLevelParams envFixture
      = .ok { server_uri := urnOf "/usr/bin/metals", server_args := [],
              document_selector := overrideSelector,
              options := topLevelParams.initialization_options } :=
  ⟨rfl, (c1_top_override topLevelParams "/usr/bin/metals" rfl).2 envFixture⟩

/-- C1 counterexample: with top-level serverPath "/usr/bin/metals" the
directive's server_uri is "urn:/usr/bin/metals", not the path itself as
the claim states. -/
theorem c1_counterexample :
    (resolve topLevelParams envFixture).toOption.map LaunchDirective.server_uri
      = some "urn:/usr/bin/metals" ∧
    "urn:/usr/bin/metals" ≠ "/usr/bin/metals" := ⟨rfl, by decide⟩

/-- C2 (amended): for every params payload that does deserialise and every
error from the delegated resolution, the bridge emits exactly one
ERROR-level notification, whose text carries the error's description, and
terminates normally without starting a backend. -/
theorem c2_error_notification (params : Json) (p : InitializeParams)
    (env : Env) (e : String)
    (hp : paramsFromValue params = some p)
    (he : resolve p env = .error e) :
    handle_request "initialize" params env
      = .normal [(MessageType.error, "plugin returned with error: " ++ e)] none := by
  simp only [handle_request, if_pos, hp, he]

/-- C2 witness: a registry failure at a concrete payload produces the one
ERROR notification. -/
theorem c2_witness :
    paramsFromValue (Json.obj []) = some ⟨none⟩ ∧
    resolve ⟨none⟩ { envFixture with latestRelease := fun _ => .error "boom" }
      = .error "boom" ∧
    handle_request "initialize" (Json.obj [])
        { envFixture with latestRelease := fun _ => .error "boom" }
      = .normal [(MessageType.error, "plugin returned with error: " ++ "boom")] none :=
  ⟨rfl, rfl,
    c2_error_notification (Json.obj []) ⟨none⟩
      { envFixture with latestRelease := fun _ => .error "boom" } "boom" rfl rfl⟩

/-- C2 counterexample: a params payload that fails to deserialise (a JSON
string) makes handling panic via the unwrap, so handling does not
terminate normally for every possible payload. -/
theorem c2_counterexample :
    handle_request "initialize" (Json.str "oops") envFixture
      = HandleOutcome.panicked := rfl

/-- C5: with the top-level override absent or empty and a usable nested
lsp.serverPath, resolution terminates in the namespaced-override state:
the directive is built from lsp.serverPath (as a URN) and the accumulated
lsp.serverArgs, and the result is independent of the entire environment
(any operating-system identifier, any registry answer), so neither the
Release Resolver nor the Asset Selector is consulted. -/
theorem c5_namespaced_override (params : InitializeParams) (sp : String)
    (h0 : topLevelServerPath params = none)
    (h1 : lspServerPath params.initialization_options = some sp) :
    (∀ env env', resolve params env = resolve params env') ∧
    ∀ env, resolve params env
      = .ok { server_uri := urnOf sp,
              server_args := server_args params.initialization_options,
              document_selector := document_selector,
              options := params.initialization_options } := by
  refine ⟨fun env env' => ?_, fun env => resolve_namespaced_eq params env sp h0 h1⟩
  rw [resolve_namespaced_eq params env sp h0 h1,
      resolve_namespaced_eq params env' sp h0 h1]

/-- C5 witness: the namespaced override at the concrete fixture. -/
theorem c5_witness :
    topLevelServerPath namespacedParams = none ∧
    lspServerPath namespacedParams.initialization_options = some "metals" ∧
    resolve namespacedParams envFixture
      = .ok { server_uri := urnOf "metals",
              server_args := server_args namespacedParams.initialization_options,
              document_selector := document_selector,
              options := namespacedParams.initialization_options } :=
  ⟨rfl, rfl, (c5_namespaced_override namespacedParams "metals" rfl rfl).2 envFixture⟩

/-- C6: the document selector is NOT constant across the three states: the
top-level-override branch carries a glob pattern with an embedded newline
and indentation (its string literal is broken across two source lines),
while the namespaced-override and auto-provision branches share the intact
"**/*.{scala}" pattern; language id and scheme do agree.  The spec's
constant-selector reading is the evident intent and the broken literal a
slip, so this is recorded against the code. -/
theorem c6_selector_divergence :
    (resolve topLevelParams envFixture).toOption.map LaunchDirective.document_selector
      = some overrideSelector ∧
    (resolve namespacedParams envFixture).toOption.map LaunchDirective.document_selector
      = some document_selector ∧
    overrideSelector ≠ document_selector ∧
    overrideSelector.map DocumentFilter.pattern
      = [some "**/*.\n                {scala}"] ∧
    document_selector.map DocumentFilter.pattern = [some "**/*.{scala}"] ∧
    overrideSelector.map DocumentFilter.language
      = document_selector.map DocumentFilter.language ∧
    overrideSelector.map DocumentFilter.scheme
      = document_selector.map DocumentFilter.scheme :=
  ⟨rfl, rfl, by decide, rfl, rfl, rfl, rfl⟩

/-- C3 (amended): only the scala probe applies the version pattern: when
the first line of scala probe output contains a MAJOR.MINOR.PATCH
substring the detector returns the leftmost such match, and when it
contains none the detector returns the empty string; every entry the sbt
probe collects is version-shaped.  (The java probe, by contrast, returns
its raw first line: see the counterexample.) -/
theorem c3_version_detector (out : String) :
    (¬ HasVersion (firstLine out).data → scala_version (some out) = "") ∧
    (HasVersion (firstLine out).data →
      ∃ m pre post, scala_version (some out) = m.asString ∧ IsVersion m ∧
        (firstLine out).data = pre ++ m ++ post ∧
        ∀ i, i < pre.length →
          ¬ StartsWithVersion ((firstLine out).data.drop i)) ∧
    (∀ l, sbt_version (some out) = some l → ∀ s ∈ l, IsVersion s.data) := by
  refine ⟨?_, ?_, ?_⟩
  · intro hn
    cases hf : findVersionFrom (firstLine out).data with
    | none => simp [scala_version, hf]
    | some mr =>
      obtain ⟨pre, heq, hv, _⟩ := findVersionFrom_sound _ mr.1 mr.2 (by rw [hf])
      exact absurd ⟨pre, mr.1, mr.2, heq, hv⟩ hn
  · intro h
    obtain ⟨pre0, v0, post0, heq0, hv0⟩ := h
    have hs : (findVersionFrom (firstLine out).data).isSome := by
      rw [heq0]
      exact findVersionFrom_complete pre0 v0 post0 hv0
    cases hf : findVersionFrom (firstLine out).data with
    | none => rw [hf] at hs; exact absurd hs (by simp)
    | some mr =>
      obtain ⟨pre, heq, hv, hleft⟩ := findVersionFrom_sound _ mr.1 mr.2 (by rw [hf])
      refine ⟨mr.1, pre, mr.2, by simp [scala_version, hf], hv, heq, ?_⟩
      intro i hi hsw
      obtain ⟨v, post, hvp, hisv⟩ := hsw
      exact hleft i hi ⟨v, post, hvp, hisv⟩
  · intro l hl s hs
    have hl' : (versionMatches (firstLine out).data).map List.asString = l :=
      Option.some.inj hl
    rw [← hl'] at hs
    obtain ⟨m, hm, hms⟩ := List.mem_map.mp hs
    have : IsVersion m := versionMatchesAux_sound _ _ m hm
    rw [← hms]
    exact this

/-- C3 witness: the scala probe at concrete output "Scala code runner
version 3.3.1" yields a version-shaped leftmost match. -/
theorem c3_witness :
    ∃ m pre post,
      scala_version (some "Scala code runner version 3.3.1") = m.asString ∧
      IsVersion m ∧
      (firstLine "Scala code runner version 3.3.1").data = pre ++ m ++ post ∧
      ∀ i, i < pre.length →
        ¬ StartsWithVersion
          ((firstLine "Scala code runner version 3.3.1").data.drop i) :=
  (c3_version_detector "Scala code runner version 3.3.1").2.1
    ⟨"Scala code runner version ".data, "3.3.1".data, [], by decide,
      ⟨['3'], ['3'], ['1'], by decide, by decide, by decide,
        by decide, by decide, by decide, by decide⟩⟩

/-- C3 counterexample: for the java probe the claim fails: the first output
line "openjdk 21.0.2" contains the MAJOR.MINOR.PATCH substring "21.0.2",
but the detector returns the entire raw line, not that substring. -/
theorem c3_counterexample :
    java_version (some "openjdk 21.0.2") = "openjdk 21.0.2" ∧
    "openjdk 21.0.2" ≠ "21.0.2" ∧
    HasVersion (firstLine "openjdk 21.0.2").data :=
  ⟨rfl, by decide,
    ⟨"openjdk ".data, "21.0.2".data, [], by decide,
      ⟨['2', '1'], ['0'], ['2'], by decide, by decide, by decide,
        by decide, by decide, by decide, by decide⟩⟩⟩

/-- C4 (amended): a release string containing the
`(\d+)\.(\d+)\.(\d+)\+\d+` shape succeeds, producing the tag
OpenJDK(major)U; a release string not containing it makes
read_major_jdk_version panic (the unwrap aborts, modelled by `none`) —
there is no AssetFormatError error result in the code. -/
theorem c4_jdk_release_shape (release : String) :
    (¬ HasJdkShape release.data → read_major_jdk_version release = none) ∧
    (HasJdkShape release.data →
      ∃ maj, read_major_jdk_version release
          = some ("OpenJDK" ++ maj.asString ++ "U") ∧
        maj ≠ [] ∧ ∀ x ∈ maj, x.isDigit) := by
  constructor
  · intro hn
    cases hf : findJdkFrom release.data with
    | none => simp [read_major_jdk_version, hf]
    | some cap => exact absurd (findJdkFrom_sound _ cap hf).1 hn
  · intro h
    have hs := findJdkFrom_complete release.data h
    cases hf : findJdkFrom release.data with
    | none => rw [hf] at hs; exact absurd hs (by simp)
    | some cap =>
      obtain ⟨_, hne, hdig⟩ := findJdkFrom_sound _ cap hf
      exact ⟨cap, by simp [read_major_jdk_version, hf], hne, hdig⟩

/-- C4 witness: the release "21.0.2+13" matches the shape and produces the
tag OpenJDK21U. -/
theorem c4_witness :
    ∃ maj, read_major_jdk_version "21.0.2+13"
        = some ("OpenJDK" ++ maj.asString ++ "U") ∧
      maj ≠ [] ∧ ∀ x ∈ maj, x.isDigit :=
  (c4_jdk_release_shape "21.0.2+13").2
    ⟨[], ['2', '1'], ['0'], ['2'], ['1', '3'], [], by decide, by decide,
      by decide, by decide, by decide, by decide, by decide, by decide,
      by decide⟩

/-- C4 counterexample: on the non-matching release "banana" the function
panics (the unwrap on the failed capture aborts the process, modelled by
`none`); no AssetFormatError is returned as an error result, contrary to
the claim.  On the matching release "21.0.2+13" it succeeds. -/
theorem c4_counterexample :
    read_major_jdk_version "banana" = none ∧
    read_major_jdk_version "21.0.2+13" = some "OpenJDK21U" := ⟨rfl, rfl⟩

/-- C7 (amended): a resolution that reaches the auto-provision state hands
the accumulated lsp.serverArgs to the directive, so the argument list is
not empty in general: it is empty exactly when the configuration supplies
no lsp.serverArgs array or supplies one without any string element. -/
theorem c7_autoprov_args (params : InitializeParams) (env : Env)
    (d : LaunchDirective)
    (h0 : topLevelServerPath params = none)
    (h1 : lspServerPath params.initialization_options = none)
    (hd : resolve params env = .ok d) :
    d.server_args = server_args params.initialization_options ∧
    (d.server_args = [] ↔
      ((params.initialization_options.bind (fun o => o.get? "lsp")).bind
          (fun lsp => lsp.get? "serverArgs")).bind Json.asArr = none ∨
        ∃ args, ((params.initialization_options.bind (fun o => o.get? "lsp")).bind
            (fun lsp => lsp.get? "serverArgs")).bind Json.asArr = some args ∧
          ∀ a ∈ args, Json.asStr a = none) := by
  obtain ⟨rel, v, _, _, hdd⟩ := resolve_autoprov_inv params env d h0 h1 hd
  subst hdd
  refine ⟨rfl, ?_⟩
  cases hargs : ((params.initialization_options.bind (fun o => o.get? "lsp")).bind
      (fun lsp => lsp.get? "serverArgs")).bind Json.asArr with
  | none => simp [server_args, hargs]
  | some args => simp [server_args, hargs, List.filterMap_eq_nil_iff]

/-- C7 witness: the amended claim applied at the fixture whose options
carry lsp.serverArgs but no lsp.serverPath. -/
theorem c7_witness :
    LaunchDirective.server_args
        { server_uri := joinUri "file:///volt/" "[filename]",
          server_args := ["--foo"],
          document_selector := document_selector,
          options := argsOnlyParams.initialization_options }
      = server_args argsOnlyParams.initialization_options :=
  (c7_autoprov_args argsOnlyParams envFixture
    { server_uri := joinUri "file:///volt/" "[filename]",
      server_args := ["--foo"],
      document_selector := document_selector,
      options := argsOnlyParams.initialization_options } rfl rfl rfl).1

/-- C7 counterexample: options supplying lsp.serverArgs = ["--foo"] with no
lsp.serverPath reach the auto-provision state (both overrides absent), yet
the resulting directive's argument list is ["--foo"], not empty as the
claim states. -/
theorem c7_counterexample :
    topLevelServerPath argsOnlyParams = none ∧
    lspServerPath argsOnlyParams.initialization_options = none ∧
    resolve argsOnlyParams envFixture
      = .ok { server_uri := joinUri "file:///volt/" "[filename]",
              server_args := ["--foo"],
              document_selector := document_selector,
              options := argsOnlyParams.initialization_options } ∧
    ["--foo"] ≠ ([] : List String) :=
  ⟨rfl, rfl, rfl, by decide⟩

/-- C8: with a usable namespaced override and any lsp.serverArgs array,
resolution succeeds (no abort) and the directive's argument list, mapped
back into JSON strings, is exactly the subsequence of string elements of
the array in their original relative order: non-string elements are
dropped, nothing else changes. -/
theorem c8_malformed_args (params : InitializeParams) (env : Env)
    (sp : String) (args : List Json)
    (h0 : topLevelServerPath params = none)
    (h1 : lspServerPath params.initialization_options = some sp)
    (h2 : ((params.initialization_options.bind (fun o => o.get? "lsp")).bind
            (fun lsp => lsp.get? "serverArgs")).bind Json.asArr = some args) :
    ∃ d, resolve params env = .ok d ∧
      d.server_args = args.filterMap Json.asStr ∧
      d.server_args.map Json.str
        = args.filter (fun a => (Json.asStr a).isSome) := by
  refine ⟨_, resolve_namespaced_eq params env sp h0 h1, ?_, ?_⟩
  · simp [server_args, h2]
  · simp only [server_args, h2]
    exact filterMap_asStr_eq_filter args

/-- C8 witness: the mixed array ["-a", 3, "-b"] yields the argument list
["-a", "-b"] in order without aborting. -/
theorem c8_witness :
    ∃ d, resolve namespacedParams envFixture = .ok d ∧
      d.server_args
        = [Json.str "-a", Json.num 3, Json.str "-b"].filterMap Json.asStr ∧
      d.server_args.map Json.str
        = [Json.str "-a", Json.num 3, Json.str "-b"].filter
            (fun a => (Json.asStr a).isSome) :=
  c8_malformed_args namespacedParams envFixture "metals"
    [Json.str "-a", Json.num 3, Json.str "-b"] rfl rfl rfl

/-- C9: in the auto-provision state the directive's server_uri depends only
on the plugin working-directory URI: two successful runs over the same
configuration and the same working-directory URI (in particular two runs
differing only in the operating-system identifier and the registry's
release string) produce the same server_uri, namely the working-directory
URI joined with the fixed name "[filename]". -/
theorem c9_autoprov_uri_independent (params : InitializeParams)
    (env1 env2 : Env) (d1 d2 : LaunchDirective)
    (hvolt : env1.voltUri = env2.voltUri)
    (h0 : topLevelServerPath params = none)
    (h1 : lspServerPath params.initialization_options = none)
    (hd1 : resolve params env1 = .ok d1)
    (hd2 : resolve params env2 = .ok d2) :
    d1.server_uri = d2.server_uri ∧
    ∀ v, env1.voltUri = .ok v → d1.server_uri = joinUri v "[filename]" := by
  obtain ⟨rel1, v1, hrel1, hvu1, hdd1⟩ :=
    resolve_autoprov_inv params env1 d1 h0 h1 hd1
  obtain ⟨rel2, v2, hrel2, hvu2, hdd2⟩ :=
    resolve_autoprov_inv params env2 d2 h0 h1 hd2
  have hv12 : v1 = v2 := by
    have h : env2.voltUri = .ok v1 := by rw [← hvolt]; exact hvu1
    rw [hvu2] at h
    exact (Except.ok.inj h).symm
  subst hdd1 hdd2
  constructor
  · simp [hv12]
  · intro v hv
    rw [hvu1] at hv
    have : v1 = v := Except.ok.inj hv
    simp [this]

/-- C9 witness: two runs over the same working directory but different OS
and release string produce the same server_uri. -/
theorem c9_witness :
    LaunchDirective.server_uri
        { server_uri := joinUri "file:///volt/" "[filename]",
          server_args := [], document_selector := document_selector,
          options := none }
      = joinUri "file:///volt/" "[filename]" :=
  (c9_autoprov_uri_independent ⟨none⟩ envFixture
    { envFixture with os := .ok "windows", latestRelease := fun _ => .ok "9.9.9+9" }
    { server_uri := joinUri "file:///volt/" "[filename]",
      server_args := [], document_selector := document_selector,
      options := none }
    { server_uri := joinUri "file:///volt/" "[filename]",
      server_args := [], document_selector := document_selector,
      options := none }
    rfl rfl rfl rfl rfl).2 "file:///volt/" rfl

/-- C10: a nested lsp.serverPath that is a non-string JSON value or the
empty string is treated as absent, mirroring the top-level handling: the
namespaced override is not taken and (when the registry and working
directory queries succeed) resolution falls through to the auto-provision
state, whose directive points at the locally computed path. -/
theorem c10_empty_nested_path (params : InitializeParams)
    (opts lsp j : Json) (env : Env)
    (hopts : params.initialization_options = some opts)
    (hlsp : opts.get? "lsp" = some lsp)
    (hj : lsp.get? "serverPath" = some j)
    (hjs : Json.asStr j = none ∨ Json.asStr j = some "")
    (h0 : topLevelServerPath params = none) :
    lspServerPath params.initialization_options = none ∧
    ∀ rel v, env.latestRelease "adoptium/temurin21-binaries" = .ok rel →
      env.voltUri = .ok v →
      ∃ d, resolve params env = .ok d ∧
        d.server_uri = joinUri v "[filename]" := by
  have hnone : lspServerPath params.initialization_options = none := by
    rcases hjs with h | h <;>
      simp [lspServerPath, hopts, hlsp, hj, h, String.isEmpty_iff]
  exact ⟨hnone, fun rel v hrel hvu =>
    ⟨_, resolve_autoprov_eq params env rel v h0 hnone hrel hvu, rfl⟩⟩

/-- C10 witness: empty serverPath strings at both levels fall through to
auto-provision. -/
theorem c10_witness :
    ∃ d, resolve emptyPathsParams envFixture = .ok d ∧
      d.server_uri = joinUri "file:///volt/" "[filename]" :=
  (c10_empty_nested_path emptyPathsParams
      (.obj [("serverPath", .str ""), ("lsp", .obj [("serverPath", .str "")])])
      (.obj [("serverPath", .str "")]) (.str "") envFixture rfl rfl rfl
      (Or.inr rfl) rfl).2 "21.0.2+13" "file:///volt/" rfl rfl

end ScalaLapce
